import Mathlib

/-
Verification of the Jo-diff (observation impact) aggregation pipeline of the
data-impact repository (di_common.py, di_conv.py, di_conv_uv.py, di_sate.py,
scripts_post/generate_data_impact_figures.py).

Modelling conventions, stated once:
  * Python/NumPy floating-point scalars are modelled by `FQ := Option ℚ`,
    where `none` stands for NaN and `some q` for a finite value.  The IEEE
    comparison semantics the scripts rely on (`NaN == 0` is false,
    `NaN != 0` is true, `abs(NaN) > 25` is false, `np.isnan` detects NaN,
    arithmetic propagates NaN) are reproduced by the `f*` operations below.
    Quantities on which the scripts never perform a NaN-sensitive operation
    (latitudes/longitudes of conventional rows, pressures, observation
    types) are modelled directly by ℚ.
  * `np.std` and `np.sqrt` produce irrational values, so the bin computation
    of di_common.compute_bins is modelled over ℝ (with `Real.sqrt`); its
    input sample stays rational.
  * A pandas row is modelled by a structure holding exactly the fields the
    script reads; the guess/analysis tables are a list of row pairs (the
    loops pair rows positionally by `iloc[i]`).
  * The `eval(domain_str, ...)` spatial filter is an arbitrary boolean
    predicate over (latitude, longitude), modelled by a `Bool`-valued
    function parameter.
  * Mutation of pre-zeroed NumPy arrays indexed by the sensor position is
    modelled by building the final array with `List.map` over the sensor
    list: a slot is the written value when the per-sensor branch assigns
    it, and 0 (the initial `np.zeros` content) otherwise.
  * Filesystem effects (os.makedirs, savefig, pickle.dump) are modelled by
    an ordered event trace; printed warnings by a list of strings.
-/

/-- Scalar model of a Python/NumPy float: `none` is NaN, `some q` a finite
value.  (Infinities never arise in the modelled code paths.) -/
abbrev FQ := Option ℚ

/-- np.isnan -/
def fIsNaN : FQ → Bool
  | none => true
  | some _ => false

/-- IEEE `==`: NaN compares unequal to everything. -/
def fEqv : FQ → FQ → Bool
  | some a, some b => decide (a = b)
  | _, _ => false

/-- IEEE `!=`: true whenever either side is NaN. -/
def fNe : FQ → FQ → Bool
  | some a, some b => decide (a ≠ b)
  | _, _ => true

/-- Addition, NaN-propagating. -/
def fAdd : FQ → FQ → FQ
  | some a, some b => some (a + b)
  | _, _ => none

/-- Subtraction, NaN-propagating. -/
def fSub : FQ → FQ → FQ
  | some a, some b => some (a - b)
  | _, _ => none

/-- Multiplication, NaN-propagating.  (The code never multiplies 0 by an
infinity, so plain propagation is faithful.) -/
def fMul : FQ → FQ → FQ
  | some a, some b => some (a * b)
  | _, _ => none

/-- Division; NaN on NaN operands and on division by zero. -/
def fDiv : FQ → FQ → FQ
  | some a, some b => if b = 0 then none else some (a / b)
  | _, _ => none

/-- `x ** 2` -/
def fSq (a : FQ) : FQ := fMul a a

/-- `abs` -/
def fAbs : FQ → FQ
  | some a => some |a|
  | none => none

/-- Binary max as folded by `np.max`: NaN propagates. -/
def fMax2 : FQ → FQ → FQ
  | some a, some b => some (max a b)
  | _, _ => none

/-- `np.sum` over a list of floats (0.0 on the empty list). -/
def fSumL (xs : List FQ) : FQ := xs.foldl fAdd (some 0)

/-- `np.mean` over a list of floats; NaN on the empty list. -/
def fMeanL (xs : List FQ) : FQ :=
  if xs.length = 0 then none else fDiv (fSumL xs) (some (xs.length : ℚ))

/-- `np.max(np.abs(xs))`; NaN on the empty list (np.max raises there, but the
scripts only call it on non-empty lists). -/
def fMaxAbsL (xs : List FQ) : FQ :=
  match xs.map fAbs with
  | [] => none
  | y :: ys => ys.foldl fMax2 y

/-- The Jo-diff formula shared by all three families, as written in the
loops: `(anl_omf ** 2 - ges_omf ** 2) * (inv_err ** 2)`.  The inverse error
comes from the analysis row in every call site. -/
def joDiffF (anlOmf gesOmf invErr : FQ) : FQ :=
  fMul (fSub (fSq anlOmf) (fSq gesOmf)) (fSq invErr)

/-- `abs(jo_diff) > 25` (false on NaN, as in IEEE). -/
def isLargeJo : FQ → Bool
  | some x => decide (25 < |x|)
  | none => false

/-- The `elif jo_diff == 0` classification: reached only when the outlier
branch did not fire. -/
def isZeroJo (jo : FQ) : Bool := !(isLargeJo jo) && fEqv jo (some 0)

/-- The `if abs(jo)>25: large += 1 elif jo == 0: zero += 1` counter update,
shared by the three family loops. -/
def classifyJo (lz : ℕ × ℕ) (jo : FQ) : ℕ × ℕ :=
  if isLargeJo jo then (lz.1 + 1, lz.2)
  else if fEqv jo (some 0) then (lz.1, lz.2 + 1)
  else lz

/-- One row of a conventional (scalar) diagnostic table, holding exactly the
fields di_conv.py reads.  `useFlag` is `int(row.name[6])` (the
Analysis_Use_Flag component of the index, after the int cast); `pressure`
is `row.name[4]`; `obsType` is `row.name[2]`. -/
structure ConvRow where
  omfAdjusted : FQ
  errinvFinal : FQ
  useFlag : ℤ
  latitude : ℚ
  longitude : ℚ
  pressure : ℚ
  obsType : ℚ
deriving DecidableEq

/-- One row of a conventional wind (u/v) diagnostic table, holding exactly
the fields di_conv_uv.py reads. -/
structure UvRow where
  uOmfAdjusted : FQ
  vOmfAdjusted : FQ
  errinvFinal : FQ
  useFlag : ℤ
  latitude : ℚ
  longitude : ℚ
  pressure : ℚ
  obsType : ℚ
deriving DecidableEq

/-- One row of a radiance diagnostic table, holding exactly the fields
di_sate.py reads.  `qcFlag` is `int(row.name[1])`; the `.get(..., np.nan)`
accesses are modelled by the fields being NaN-able (`FQ`). -/
structure SateRow where
  qcFlag : ℤ
  omfAdjusted : FQ
  invObsError : FQ
  latitude : FQ
  longitude : FQ
  channelIndex : FQ
deriving DecidableEq

/-- Accumulator state of the conventional loops (di_conv.py and
di_conv_uv.py use the same accumulators). -/
structure LoopState where
  joDiffs : List FQ := []
  invObsErrors : List FQ := []
  lats : List ℚ := []
  lons : List ℚ := []
  pressures : List ℚ := []
  obsTypes : List ℚ := []
  countAssim : ℕ := 0
  countLarge : ℕ := 0
  countZero : ℕ := 0
deriving DecidableEq

/-- Accumulator state of the radiance loop (di_sate.py). -/
structure SateState where
  joDiffs : List FQ := []
  invObsErrors : List FQ := []
  channels : List FQ := []
  lats : List FQ := []
  lons : List FQ := []
  countAssim : ℕ := 0
  countLarge : ℕ := 0
  countZero : ℕ := 0
deriving DecidableEq

/-- One iteration of the di_conv.py observation loop (lines 77-120), on the
pair `(ges, anl) = (data_ges.iloc[i], data_anl.iloc[i])`.  The three
`continue`s keep the state unchanged; a retained row appends the Jo-diff,
the inverse error and the detail fields and bumps the counters. -/
def convStep (dom : ℚ → ℚ → Bool) (s : LoopState) (p : ConvRow × ConvRow) :
    LoopState :=
  let ges := p.1
  let anl := p.2
  let invErr := anl.errinvFinal
  if fEqv invErr (some 0) then s
  else if ¬ (ges.useFlag = 1 ∧ anl.useFlag = 1) then s
  else if ¬ (dom anl.latitude anl.longitude = true) then s
  else
    let jo := joDiffF anl.omfAdjusted ges.omfAdjusted invErr
    let lz := classifyJo (s.countLarge, s.countZero) jo
    { joDiffs := s.joDiffs ++ [jo]
      invObsErrors := s.invObsErrors ++ [invErr]
      lats := s.lats ++ [anl.latitude]
      lons := s.lons ++ [anl.longitude]
      pressures := s.pressures ++ [anl.pressure]
      obsTypes := s.obsTypes ++ [anl.obsType]
      countAssim := s.countAssim + 1
      countLarge := lz.1
      countZero := lz.2 }

/-- The whole di_conv.py observation loop over the positionally paired
guess/analysis tables. -/
def processConv (dom : ℚ → ℚ → Bool) (rows : List (ConvRow × ConvRow)) :
    LoopState :=
  rows.foldl (convStep dom) {}

/-- One iteration of the di_conv_uv.py observation loop (lines 80-127): the
same rejection filters, then two component Jo-diffs, two appended list
entries per detail array, `count_assim += 2`, and the per-component
outlier/zero classification. -/
def uvStep (dom : ℚ → ℚ → Bool) (s : LoopState) (p : UvRow × UvRow) :
    LoopState :=
  let ges := p.1
  let anl := p.2
  let invErr := anl.errinvFinal
  if fEqv invErr (some 0) then s
  else if ¬ (ges.useFlag = 1 ∧ anl.useFlag = 1) then s
  else if ¬ (dom anl.latitude anl.longitude = true) then s
  else
    let joU := joDiffF anl.uOmfAdjusted ges.uOmfAdjusted invErr
    let joV := joDiffF anl.vOmfAdjusted ges.vOmfAdjusted invErr
    let lz := [joU, joV].foldl classifyJo (s.countLarge, s.countZero)
    { joDiffs := s.joDiffs ++ [joU, joV]
      invObsErrors := s.invObsErrors ++ [invErr, invErr]
      lats := s.lats ++ [anl.latitude, anl.latitude]
      lons := s.lons ++ [anl.longitude, anl.longitude]
      pressures := s.pressures ++ [anl.pressure, anl.pressure]
      obsTypes := s.obsTypes ++ [anl.obsType, anl.obsType]
      countAssim := s.countAssim + 2
      countLarge := lz.1
      countZero := lz.2 }

/-- The whole di_conv_uv.py observation loop. -/
def processUv (dom : ℚ → ℚ → Bool) (rows : List (UvRow × UvRow)) :
    LoopState :=
  rows.foldl (uvStep dom) {}

/-- One iteration of the di_sate.py observation loop (lines 85-129): reject
on NaN-or-zero inverse error, reject on the domain predicate, then retain
only when both QC flags equal 0 and `inv_err != 0` (the latter conjunct is
the literal redundant check of line 110). -/
def sateStep (dom : FQ → FQ → Bool) (s : SateState) (p : SateRow × SateRow) :
    SateState :=
  let ges := p.1
  let anl := p.2
  let invErr := anl.invObsError
  if fIsNaN invErr || fEqv invErr (some 0) then s
  else if ¬ (dom anl.latitude anl.longitude = true) then s
  else
    let jo := joDiffF anl.omfAdjusted ges.omfAdjusted invErr
    if ges.qcFlag = 0 ∧ anl.qcFlag = 0 ∧ fNe invErr (some 0) = true then
      let lz := classifyJo (s.countLarge, s.countZero) jo
      { joDiffs := s.joDiffs ++ [jo]
        invObsErrors := s.invObsErrors ++ [invErr]
        channels := s.channels ++ [anl.channelIndex]
        lats := s.lats ++ [anl.latitude]
        lons := s.lons ++ [anl.longitude]
        countAssim := s.countAssim + 1
        countLarge := lz.1
        countZero := lz.2 }
    else s

/-- The whole di_sate.py observation loop. -/
def processSate (dom : FQ → FQ → Bool) (rows : List (SateRow × SateRow)) :
    SateState :=
  rows.foldl (sateStep dom) {}

/-- The retention predicate of the conventional scalar loop, read off the
`continue` conditions: inverse error not `== 0`, both analysis-use flags
equal to the sentinel 1, and the domain predicate true.  (Note: a NaN
inverse error does not fail `fEqv invErr 0`, so it does not reject.) -/
def retainedConv (dom : ℚ → ℚ → Bool) (p : ConvRow × ConvRow) : Bool :=
  !(fEqv p.2.errinvFinal (some 0)) && decide (p.1.useFlag = 1) &&
    decide (p.2.useFlag = 1) && dom p.2.latitude p.2.longitude

/-- The retention predicate of the conventional vector loop (identical
filters to the scalar loop). -/
def retainedUv (dom : ℚ → ℚ → Bool) (p : UvRow × UvRow) : Bool :=
  !(fEqv p.2.errinvFinal (some 0)) && decide (p.1.useFlag = 1) &&
    decide (p.2.useFlag = 1) && dom p.2.latitude p.2.longitude

/-- The retention predicate of the radiance loop: inverse error neither NaN
nor zero, domain predicate true, and both QC flags equal to the sentinel 0. -/
def retainedSate (dom : FQ → FQ → Bool) (p : SateRow × SateRow) : Bool :=
  !(fIsNaN p.2.invObsError) && !(fEqv p.2.invObsError (some 0)) &&
    dom p.2.latitude p.2.longitude && decide (p.1.qcFlag = 0) &&
    decide (p.2.qcFlag = 0)

/-- np.mean of a rational sample. -/
def npMeanQ (xs : List ℚ) : ℚ := xs.sum / (xs.length : ℚ)

/-- Population variance, the square of np.std. -/
def npVarQ (xs : List ℚ) : ℚ :=
  ((xs.map (fun x => (x - npMeanQ xs) ^ 2)).sum) / (xs.length : ℚ)

/-- Maximum of a sample (np.max), as a fold; only used on non-empty lists. -/
def listMaxQ (xs : List ℚ) : ℚ := xs.foldl max (xs.headD 0)

/-- Minimum of a sample (np.min), as a fold; only used on non-empty lists. -/
def listMinQ (xs : List ℚ) : ℚ := xs.foldl min (xs.headD 0)

/-- np.arange(start, stop, step) for a positive step: the edges
`start + k * step` for `k < ceil((stop - start) / step)`. -/
noncomputable def arange (start stop step : ℝ) : List ℝ :=
  (List.range (Int.ceil ((stop - start) / step)).toNat).map
    (fun k : ℕ => start + (k : ℝ) * step)

/-- di_common.compute_bins, lines 26-36.  The sample is rational (modelling
float inputs); np.std and np.sqrt force the result into ℝ. -/
noncomputable def compute_bins (joDiffs : List ℚ) : List ℝ :=
  if joDiffs.length = 0 then arange (-1) 1 (1 / 10)
  else
    let n : ℕ := joDiffs.length
    let std : ℝ := Real.sqrt ((npVarQ joDiffs : ℚ) : ℝ)
    let mx : ℚ := listMaxQ joDiffs
    let mn : ℚ := listMinQ joDiffs
    let binsize : ℝ :=
      if 0 < n then ((mx : ℝ) - (mn : ℝ)) / Real.sqrt (n : ℝ) else 1
    let binsize2 : ℝ := if binsize ≤ 0 then 1 / 10 else binsize
    arange (-4 * std) (4 * std) binsize2

/-- One element of the legacy pickle payload: either the sensor-name list or
one numeric array. -/
inductive PickleElem where
  | strs : List String → PickleElem
  | arr : List FQ → PickleElem
deriving DecidableEq

/-- di_common.save_legacy_pickle, lines 125-132: the serialized object is
the fixed 6-element ordered list
`[sensor_types, total_size, assim_size, mean_jo, sum_jo, max_abs_jo]`. -/
def save_legacy_pickle (sensorTypes : List String)
    (totalSize assimSize meanJo sumJo maxAbsJo : List FQ) : List PickleElem :=
  [PickleElem.strs sensorTypes, PickleElem.arr totalSize,
   PickleElem.arr assimSize, PickleElem.arr meanJo, PickleElem.arr sumJo,
   PickleElem.arr maxAbsJo]

/-- A filesystem event: directory creation (os.makedirs with exist_ok) or a
file write, tagged with the directory the written path lives in. -/
inductive Ev where
  | mkdir : String → Ev
  | write : String → String → Ev
deriving DecidableEq

/-- Effect trace of di_common.plot_jo_histogram: `os.makedirs(outdir,
exist_ok=True)` (line 74) and then the figure write (line 105). -/
def plotHistogramTrace (outdir sensor cycle : String) : List Ev :=
  [Ev.mkdir outdir,
   Ev.write outdir (outdir ++ "/" ++ sensor ++ "-" ++ cycle ++ ".png")]

/-- Effect trace of di_common.save_legacy_pickle: `os.makedirs(outdir,
exist_ok=True)` (line 124) and then the pickle write (line 134). -/
def saveLegacyTrace (outdir cycle label : String) : List Ev :=
  [Ev.mkdir outdir,
   Ev.write outdir (outdir ++ "/" ++ cycle ++ "_" ++ label ++ ".pkl")]

/-- Effect trace of the detail-pickle block of di_conv.py lines 130-145: a
bare `open(detail_file, "wb")` under directory "pickle_detail", with no
preceding directory creation. -/
def detailTrace (sensor cycle : String) : List Ev :=
  [Ev.write "pickle_detail"
    ("pickle_detail/" ++ cycle ++ "_" ++ sensor ++ "_detail.pkl")]

/-- The five per-sensor summary slots, one per final_* array of
di_conv.py.  They are float array cells, hence `FQ`. -/
structure SensorStats where
  total : FQ
  assim : FQ
  meanJo : FQ
  sumJo : FQ
  maxAbsJo : FQ
deriving DecidableEq

/-- The `np.zeros` content of an untouched sensor slot. -/
def zeroStats : SensorStats :=
  { total := some 0, assim := some 0, meanJo := some 0, sumJo := some 0,
    maxAbsJo := some 0 }

/-- What one iteration of the di_conv.py sensor loop produces: printed
missing-file warnings, filesystem events, and this sensor's summary
slots.  A missing guess file (lines 45-47) warns and leaves the slots at
their `np.zeros` value; a present file runs the observation loop, and only
when `count_assim > 0` (line 127) are the detail pickle (if requested),
the histogram figure and the summary slots produced (lines 130-158). -/
structure SensorOut where
  warnings : List String
  trace : List Ev
  stats : SensorStats
deriving DecidableEq

/-- One iteration of the di_conv.py sensor loop (lines 40-158) for sensor
`sensor`, whose diagnostic tables are `file` (`none` = the guess file does
not exist). -/
def convSensor (dom : ℚ → ℚ → Bool) (saveDetail : Bool) (cycle : String)
    (sensor : String) (file : Option (List (ConvRow × ConvRow))) :
    SensorOut :=
  match file with
  | none =>
      { warnings := ["[WARN] Missing file for " ++ sensor]
        trace := []
        stats := zeroStats }
  | some rows =>
      let st := processConv dom rows
      if 0 < st.countAssim then
        { warnings := []
          trace := (if saveDetail then detailTrace sensor cycle else []) ++
            plotHistogramTrace "./figures" sensor cycle
          stats :=
            { total := some (rows.length : ℚ)
              assim := some (st.countAssim : ℚ)
              meanJo := fMeanL st.joDiffs
              sumJo := fSumL st.joDiffs
              maxAbsJo := fMaxAbsL st.joDiffs } }
      else
        { warnings := [], trace := [], stats := zeroStats }

/-- The hard-coded sensor list of di_conv.py line 31. -/
def convSensorTypes : List String :=
  ["conv_fed", "conv_ps", "conv_pw", "conv_q", "conv_rw", "conv_sst",
   "conv_t"]

/-- Result of one analyze_conv run: the printed warnings, the ordered
filesystem-event trace, and the single legacy summary record passed to
save_legacy_pickle. -/
structure ConvRun where
  warnings : List String
  trace : List Ev
  record : List PickleElem
deriving DecidableEq

/-- di_conv.analyze_conv as a whole: iterate the sensor loop over the
hard-coded sensor list (`getFile` abstracts the filesystem lookup of the
guess/analysis diagnostic tables), then call save_legacy_pickle once with
the five accumulated arrays (lines 160-167). -/
def analyze_conv (dom : ℚ → ℚ → Bool) (saveDetail : Bool)
    (getFile : String → Option (List (ConvRow × ConvRow)))
    (cycle : String) : ConvRun :=
  let outs := convSensorTypes.map
    (fun s => convSensor dom saveDetail cycle s (getFile s))
  { warnings := (outs.map (fun o => o.warnings)).flatten
    trace := (outs.map (fun o => o.trace)).flatten ++
      saveLegacyTrace "./pickle" cycle "conv"
    record := save_legacy_pickle convSensorTypes
      (outs.map (fun o => o.stats.total))
      (outs.map (fun o => o.stats.assim))
      (outs.map (fun o => o.stats.meanJo))
      (outs.map (fun o => o.stats.sumJo))
      (outs.map (fun o => o.stats.maxAbsJo)) }

/-- Zero-pads a natural number to two digits, as the format `{h:02d}`. -/
def pad2 (n : ℕ) : String :=
  if n < 10 then "0" ++ toString n else toString n

/-- The hard-coded cycle list of generate_data_impact_figures.main, lines
197-202: days 25-30 of 2024-09, hours 6-23 on the 25th and 0-23 after. -/
def datestrList : List String :=
  ((List.range' 25 6).map (fun day =>
    (List.range' (if day = 25 then 6 else 0)
        (24 - (if day = 25 then 6 else 0))).map
      (fun h => "202409" ++ pad2 day ++ pad2 h))).flatten

/-- The two fields of a summary pickle that the cross-cycle accumulation of
generate_data_impact_figures.main reads (positions 2 and 4 of the
6-element record). -/
structure Pkl where
  assimSize : List ℚ
  sumJo : List ℚ
deriving DecidableEq

/-- The three summary files of one cycle; `none` = the file does not exist. -/
structure CycleFiles where
  sate : Option Pkl
  conv : Option Pkl
  convUv : Option Pkl
deriving DecidableEq

/-- Lines 248-254: `conv_total = np.zeros(8); conv_total[0:len(v)] = v;
conv_total[-1] = uv[-1]` — the 7 conventional slots padded into an
8-vector whose last slot is the last conv_uv slot. -/
def convTotalVec (v uv : List ℚ) : List ℚ :=
  let padded := v ++ List.replicate (8 - v.length) (0 : ℚ)
  padded.take (padded.length - 1) ++ [uv.getLastD 0]

/-- Elementwise addition of two equal-length accumulator vectors (numpy
`+=`). -/
def addVec (a b : List ℚ) : List ℚ := List.zipWith (· + ·) a b

/-- The 26-slot contribution of one cycle whose three summary files are all
present: satellite slots followed by the 8 combined conventional slots
(lines 275-278), for the sum-Jo and the assimilated-size accumulators. -/
def cycleContrib (s c u : Pkl) : List ℚ × List ℚ :=
  (s.sumJo ++ convTotalVec c.sumJo u.sumJo,
   s.assimSize ++ convTotalVec c.assimSize u.assimSize)

/-- One iteration of the accumulation loop of main (lines 217-284, keeping
only the `alltime_sum_jo_diff` / `alltime_assim_size` accumulators): a
cycle with any of its three files missing is skipped (line 225). -/
def accumStep (files : String → CycleFiles) (acc : List ℚ × List ℚ)
    (d : String) : List ℚ × List ℚ :=
  match (files d).sate, (files d).conv, (files d).convUv with
  | some s, some c, some u =>
      (addVec acc.1 (cycleContrib s c u).1, addVec acc.2 (cycleContrib s c u).2)
  | _, _, _ => acc

/-- The accumulated `(alltime_sum_jo_diff, alltime_assim_size)` pair after
the whole cycle loop, starting from the `np.zeros(26)` initializations. -/
def mainAccum (files : String → CycleFiles) : List ℚ × List ℚ :=
  datestrList.foldl (accumStep files)
    (List.replicate 26 (0 : ℚ), List.replicate 26 (0 : ℚ))

/-- Line 225: a cycle contributes only when all three summary files exist. -/
def cyclePresent (files : String → CycleFiles) (d : String) : Bool :=
  ((files d).sate).isSome && ((files d).conv).isSome &&
    ((files d).convUv).isSome

/-- The first and third bars of plot_total_summary (lines 137 and 139):
the accumulated vectors divided elementwise by `datestr_len`, which main
passes as `len(datestr_list)` (line 290) regardless of how many cycles
were actually read. -/
def plotTotalBars (datestrLen : ℕ) (sumVec assimVec : List ℚ) :
    List ℚ × List ℚ :=
  (sumVec.map (fun x => x / (datestrLen : ℚ)),
   assimVec.map (fun x => x / (datestrLen : ℚ)))

/-- The cycle-averaged bars main actually renders in `--mode total`. -/
def mainTotalBars (files : String → CycleFiles) : List ℚ × List ℚ :=
  plotTotalBars datestrList.length (mainAccum files).1 (mainAccum files).2

/-- The Jo-diff the conventional scalar loop computes for a retained row
pair: analysis residual, guess residual, analysis inverse error. -/
def convJo (p : ConvRow × ConvRow) : FQ :=
  joDiffF p.2.omfAdjusted p.1.omfAdjusted p.2.errinvFinal

/-- The two component Jo-diffs the vector loop computes for a retained row
pair, in the order they are appended (u then v); both use the shared
analysis inverse error. -/
def uvJos (p : UvRow × UvRow) : List FQ :=
  [joDiffF p.2.uOmfAdjusted p.1.uOmfAdjusted p.2.errinvFinal,
   joDiffF p.2.vOmfAdjusted p.1.vOmfAdjusted p.2.errinvFinal]

/-- The Jo-diff the radiance loop computes for a retained row pair. -/
def sateJo (p : SateRow × SateRow) : FQ :=
  joDiffF p.2.omfAdjusted p.1.omfAdjusted p.2.invObsError

lemma classifyJo_eq (l z : ℕ) (jo : FQ) :
    classifyJo (l, z) jo =
      (l + (if isLargeJo jo = true then 1 else 0),
       z + (if isZeroJo jo = true then 1 else 0)) := by
  unfold classifyJo isZeroJo
  by_cases h1 : isLargeJo jo = true
  · simp [h1]
  · by_cases h2 : fEqv jo (some 0) = true
    · simp [h1, h2]
    · simp [h1, h2]

lemma convStep_eq (dom : ℚ → ℚ → Bool) (s : LoopState)
    (p : ConvRow × ConvRow) :
    convStep dom s p =
      if retainedConv dom p = true then
        { joDiffs := s.joDiffs ++ [convJo p]
          invObsErrors := s.invObsErrors ++ [p.2.errinvFinal]
          lats := s.lats ++ [p.2.latitude]
          lons := s.lons ++ [p.2.longitude]
          pressures := s.pressures ++ [p.2.pressure]
          obsTypes := s.obsTypes ++ [p.2.obsType]
          countAssim := s.countAssim + 1
          countLarge :=
            s.countLarge + (if isLargeJo (convJo p) = true then 1 else 0)
          countZero :=
            s.countZero + (if isZeroJo (convJo p) = true then 1 else 0) }
      else s := by
  unfold convStep retainedConv convJo
  by_cases h1 : fEqv p.2.errinvFinal (some 0) = true <;>
    by_cases hA : p.1.useFlag = 1 <;>
    by_cases hB : p.2.useFlag = 1 <;>
    by_cases h3 : dom p.2.latitude p.2.longitude = true <;>
    simp [h1, hA, hB, h3, classifyJo_eq]

lemma uvStep_eq (dom : ℚ → ℚ → Bool) (s : LoopState) (p : UvRow × UvRow) :
    uvStep dom s p =
      if retainedUv dom p = true then
        { joDiffs := s.joDiffs ++ uvJos p
          invObsErrors := s.invObsErrors ++ [p.2.errinvFinal, p.2.errinvFinal]
          lats := s.lats ++ [p.2.latitude, p.2.latitude]
          lons := s.lons ++ [p.2.longitude, p.2.longitude]
          pressures := s.pressures ++ [p.2.pressure, p.2.pressure]
          obsTypes := s.obsTypes ++ [p.2.obsType, p.2.obsType]
          countAssim := s.countAssim + 2
          countLarge := s.countLarge + (uvJos p).countP isLargeJo
          countZero := s.countZero + (uvJos p).countP isZeroJo }
      else s := by
  unfold uvStep retainedUv uvJos
  by_cases h1 : fEqv p.2.errinvFinal (some 0) = true <;>
    by_cases hA : p.1.useFlag = 1 <;>
    by_cases hB : p.2.useFlag = 1 <;>
    by_cases h3 : dom p.2.latitude p.2.longitude = true <;>
    simp [h1, hA, hB, h3, classifyJo_eq, List.countP_cons, List.countP_nil]
  omega

lemma sateStep_eq (dom : FQ → FQ → Bool) (s : SateState)
    (p : SateRow × SateRow) :
    sateStep dom s p =
      if retainedSate dom p = true then
        { joDiffs := s.joDiffs ++ [sateJo p]
          invObsErrors := s.invObsErrors ++ [p.2.invObsError]
          channels := s.channels ++ [p.2.channelIndex]
          lats := s.lats ++ [p.2.latitude]
          lons := s.lons ++ [p.2.longitude]
          countAssim := s.countAssim + 1
          countLarge :=
            s.countLarge + (if isLargeJo (sateJo p) = true then 1 else 0)
          countZero :=
            s.countZero + (if isZeroJo (sateJo p) = true then 1 else 0) }
      else s := by
  unfold sateStep retainedSate sateJo
  rcases hinv : p.2.invObsError with _ | q
  · simp [hinv, fIsNaN]
  · by_cases hq : q = 0
    · simp [hinv, hq, fEqv, fIsNaN]
    · by_cases h3 : dom p.2.latitude p.2.longitude = true <;>
        by_cases hA : p.1.qcFlag = 0 <;>
        by_cases hB : p.2.qcFlag = 0 <;>
        simp [hinv, hq, h3, hA, hB, fEqv, fIsNaN, fNe, classifyJo_eq]

lemma processConv_fold (dom : ℚ → ℚ → Bool)
    (rows : List (ConvRow × ConvRow)) : ∀ s : LoopState,
    rows.foldl (convStep dom) s =
      { joDiffs := s.joDiffs ++ (rows.filter (retainedConv dom)).map convJo
        invObsErrors := s.invObsErrors ++
          (rows.filter (retainedConv dom)).map (fun p => p.2.errinvFinal)
        lats := s.lats ++
          (rows.filter (retainedConv dom)).map (fun p => p.2.latitude)
        lons := s.lons ++
          (rows.filter (retainedConv dom)).map (fun p => p.2.longitude)
        pressures := s.pressures ++
          (rows.filter (retainedConv dom)).map (fun p => p.2.pressure)
        obsTypes := s.obsTypes ++
          (rows.filter (retainedConv dom)).map (fun p => p.2.obsType)
        countAssim := s.countAssim + (rows.filter (retainedConv dom)).length
        countLarge := s.countLarge +
          ((rows.filter (retainedConv dom)).map convJo).countP isLargeJo
        countZero := s.countZero +
          ((rows.filter (retainedConv dom)).map convJo).countP isZeroJo } := by
  induction rows with
  | nil => intro s; simp
  | cons r rs ih =>
    intro s
    rw [List.foldl_cons, convStep_eq]
    by_cases h : retainedConv dom r = true
    · rw [if_pos h, ih, List.filter_cons_of_pos h]
      simp only [List.map_cons, List.countP_cons, List.length_cons,
        LoopState.mk.injEq, List.append_assoc, List.singleton_append,
        true_and, and_true]
      refine ⟨by omega, ?_, ?_⟩
      · by_cases hl : isLargeJo (convJo r) = true <;> simp [hl] <;> omega
      · by_cases hz : isZeroJo (convJo r) = true <;> simp [hz] <;> omega
    · rw [if_neg h, ih, List.filter_cons_of_neg (by simpa using h)]

lemma processUv_fold (dom : ℚ → ℚ → Bool)
    (rows : List (UvRow × UvRow)) : ∀ s : LoopState,
    rows.foldl (uvStep dom) s =
      { joDiffs := s.joDiffs ++ (rows.filter (retainedUv dom)).flatMap uvJos
        invObsErrors := s.invObsErrors ++
          (rows.filter (retainedUv dom)).flatMap
            (fun p => [p.2.errinvFinal, p.2.errinvFinal])
        lats := s.lats ++ (rows.filter (retainedUv dom)).flatMap
          (fun p => [p.2.latitude, p.2.latitude])
        lons := s.lons ++ (rows.filter (retainedUv dom)).flatMap
          (fun p => [p.2.longitude, p.2.longitude])
        pressures := s.pressures ++ (rows.filter (retainedUv dom)).flatMap
          (fun p => [p.2.pressure, p.2.pressure])
        obsTypes := s.obsTypes ++ (rows.filter (retainedUv dom)).flatMap
          (fun p => [p.2.obsType, p.2.obsType])
        countAssim := s.countAssim + 2 * (rows.filter (retainedUv dom)).length
        countLarge := s.countLarge +
          ((rows.filter (retainedUv dom)).flatMap uvJos).countP isLargeJo
        countZero := s.countZero +
          ((rows.filter (retainedUv dom)).flatMap uvJos).countP isZeroJo } := by
  induction rows with
  | nil => intro s; simp
  | cons r rs ih =>
    intro s
    rw [List.foldl_cons, uvStep_eq]
    by_cases h : retainedUv dom r = true
    · rw [if_pos h, ih, List.filter_cons_of_pos h]
      simp only [List.flatMap_cons, List.countP_append, List.length_cons,
        LoopState.mk.injEq, List.append_assoc, true_and, and_true]
      refine ⟨by omega, by omega, by omega⟩
    · rw [if_neg h, ih, List.filter_cons_of_neg (by simpa using h)]

lemma processSate_fold (dom : FQ → FQ → Bool)
    (rows : List (SateRow × SateRow)) : ∀ s : SateState,
    rows.foldl (sateStep dom) s =
      { joDiffs := s.joDiffs ++ (rows.filter (retainedSate dom)).map sateJo
        invObsErrors := s.invObsErrors ++
          (rows.filter (retainedSate dom)).map (fun p => p.2.invObsError)
        channels := s.channels ++
          (rows.filter (retainedSate dom)).map (fun p => p.2.channelIndex)
        lats := s.lats ++
          (rows.filter (retainedSate dom)).map (fun p => p.2.latitude)
        lons := s.lons ++
          (rows.filter (retainedSate dom)).map (fun p => p.2.longitude)
        countAssim := s.countAssim + (rows.filter (retainedSate dom)).length
        countLarge := s.countLarge +
          ((rows.filter (retainedSate dom)).map sateJo).countP isLargeJo
        countZero := s.countZero +
          ((rows.filter (retainedSate dom)).map sateJo).countP isZeroJo } := by
  induction rows with
  | nil => intro s; simp
  | cons r rs ih =>
    intro s
    rw [List.foldl_cons, sateStep_eq]
    by_cases h : retainedSate dom r = true
    · rw [if_pos h, ih, List.filter_cons_of_pos h]
      simp only [List.map_cons, List.countP_cons, List.length_cons,
        SateState.mk.injEq, List.append_assoc, List.singleton_append,
        true_and, and_true]
      refine ⟨by omega, ?_, ?_⟩
      · by_cases hl : isLargeJo (sateJo r) = true <;> simp [hl] <;> omega
      · by_cases hz : isZeroJo (sateJo r) = true <;> simp [hz] <;> omega
    · rw [if_neg h, ih, List.filter_cons_of_neg (by simpa using h)]

lemma countP_disjoint_le {α : Type} (p q : α → Bool)
    (h : ∀ a, p a = true → q a = false) :
    ∀ l : List α, l.countP p + l.countP q ≤ l.length := by
  intro l
  induction l with
  | nil => simp
  | cons a l ih =>
    simp only [List.countP_cons, List.length_cons]
    by_cases hp : p a = true
    · have hq := h a hp
      simp [hp, hq]; omega
    · by_cases hq : q a = true <;> simp [hp, hq] <;> omega

lemma isLargeJo_not_isZeroJo (jo : FQ) :
    isLargeJo jo = true → isZeroJo jo = false := by
  intro h; simp [isZeroJo, h]

lemma uvJos_flatMap_length (l : List (UvRow × UvRow)) :
    (l.flatMap uvJos).length = 2 * l.length := by
  induction l with
  | nil => simp
  | cons r l ih => simp [uvJos, ih]; omega

lemma flatMap_pair_length {α β : Type} (f g : α → β) (l : List α) :
    (l.flatMap (fun a => [f a, g a])).length = 2 * l.length := by
  induction l with
  | nil => simp
  | cons a l ih => simp [ih]; omega

/-- C1: for every retained observation the appended Jo-diff equals
`(analysis_residual ** 2 - guess_residual ** 2) * inverse_error ** 2`, with
the analysis row supplying the inverse error in both factors; the vector
family produces the u and v values independently from their own component
residuals and the shared inverse error; on finite values the formula is
plain rational arithmetic, and the worked example ges_omf=1, anl_omf=2,
inv_err=1/2 yields 3/4, also through the loop itself. -/
theorem C1_jo_diff_value :
    (∀ (dom : ℚ → ℚ → Bool) (rows : List (ConvRow × ConvRow)),
      (processConv dom rows).joDiffs =
        (rows.filter (retainedConv dom)).map convJo) ∧
    (∀ (dom : ℚ → ℚ → Bool) (rows : List (UvRow × UvRow)),
      (processUv dom rows).joDiffs =
        (rows.filter (retainedUv dom)).flatMap uvJos) ∧
    (∀ (dom : FQ → FQ → Bool) (rows : List (SateRow × SateRow)),
      (processSate dom rows).joDiffs =
        (rows.filter (retainedSate dom)).map sateJo) ∧
    (∀ a g e : ℚ, joDiffF (some a) (some g) (some e) =
      some ((a ^ 2 - g ^ 2) * e ^ 2)) ∧
    joDiffF (some 2) (some 1) (some (1 / 2)) = some (3 / 4) ∧
    (processConv (fun _ _ => true)
      [(⟨some 1, some (1 / 2), 1, 0, 0, 0, 0⟩,
        ⟨some 2, some (1 / 2), 1, 0, 0, 0, 0⟩)]).joDiffs =
      [some (3 / 4)] := by
  refine ⟨?_, ?_, ?_, ?_, ?_, ?_⟩
  · intro dom rows
    simp only [processConv]
    rw [processConv_fold]
    simp
  · intro dom rows
    simp only [processUv]
    rw [processUv_fold]
    simp
  · intro dom rows
    simp only [processSate]
    rw [processSate_fold]
    simp
  · intro a g e
    simp only [joDiffF, fSq, fMul, fSub]
    ring_nf
  · simp only [joDiffF, fSq, fMul, fSub]
    norm_num
  · simp only [processConv, List.foldl_cons, List.foldl_nil]
    rw [convStep_eq]
    rw [if_pos (by norm_num [retainedConv, fEqv])]
    simp only [convJo, joDiffF, fSq, fMul, fSub]
    norm_num

/-- C2 counterexample: a conventional observation whose inverse error is
NaN (and whose flags are the sentinel 1, with the domain predicate true) is
retained and counted by the di_conv.py loop — the claim requires it to be
rejected because the inverse error "is zero or NaN". -/
theorem C2_counterexample :
    fIsNaN ((⟨some 2, none, 1, 0, 0, 0, 0⟩ : ConvRow)).errinvFinal = true ∧
    (processConv (fun _ _ => true)
      [(⟨some 1, none, 1, 0, 0, 0, 0⟩,
        ⟨some 2, none, 1, 0, 0, 0, 0⟩)]).countAssim = 1 ∧
    (processConv (fun _ _ => true)
      [(⟨some 1, none, 1, 0, 0, 0, 0⟩,
        ⟨some 2, none, 1, 0, 0, 0, 0⟩)]).joDiffs.length = 1 := by
  decide

/-- C2 (amended): an observation is rejected — no count increment, no
accumulator append — exactly when the family's retention predicate fails.
For the radiance family that predicate is as the claim states (NaN or zero
inverse error, a QC flag differing from the sentinel 0, or a false domain
predicate reject); for the two conventional families the inverse-error
reject fires only on the exact value zero: a NaN inverse error does NOT
reject (there is no isnan check in di_conv.py / di_conv_uv.py), so such an
observation is retained whenever the flag sentinel (1) and domain checks
pass.  Every retained observation is counted (twice per record for the
vector family). -/
theorem C2_rejection_filter :
    (∀ (dom : ℚ → ℚ → Bool) (rows : List (ConvRow × ConvRow)),
      (processConv dom rows).countAssim =
          (rows.filter (retainedConv dom)).length ∧
        (processConv dom rows).joDiffs.length =
          (rows.filter (retainedConv dom)).length ∧
        (processConv dom rows).invObsErrors.length =
          (rows.filter (retainedConv dom)).length) ∧
    (∀ (dom : ℚ → ℚ → Bool) (rows : List (UvRow × UvRow)),
      (processUv dom rows).countAssim =
          2 * (rows.filter (retainedUv dom)).length ∧
        (processUv dom rows).joDiffs.length =
          2 * (rows.filter (retainedUv dom)).length ∧
        (processUv dom rows).invObsErrors.length =
          2 * (rows.filter (retainedUv dom)).length) ∧
    (∀ (dom : FQ → FQ → Bool) (rows : List (SateRow × SateRow)),
      (processSate dom rows).countAssim =
          (rows.filter (retainedSate dom)).length ∧
        (processSate dom rows).joDiffs.length =
          (rows.filter (retainedSate dom)).length ∧
        (processSate dom rows).invObsErrors.length =
          (rows.filter (retainedSate dom)).length) ∧
    (∀ (dom : ℚ → ℚ → Bool) (p : ConvRow × ConvRow),
      fIsNaN p.2.errinvFinal = true →
        retainedConv dom p =
          (decide (p.1.useFlag = 1) && decide (p.2.useFlag = 1) &&
            dom p.2.latitude p.2.longitude)) ∧
    (∀ (dom : FQ → FQ → Bool) (p : SateRow × SateRow),
      fIsNaN p.2.invObsError = true → retainedSate dom p = false) := by
  refine ⟨?_, ?_, ?_, ?_, ?_⟩
  · intro dom rows
    simp only [processConv]
    rw [processConv_fold]
    simp
  · intro dom rows
    simp only [processUv]
    rw [processUv_fold]
    simp [-List.length_flatMap, uvJos_flatMap_length, flatMap_pair_length]
  · intro dom rows
    simp only [processSate]
    rw [processSate_fold]
    simp
  · intro dom p h
    rcases hinv : p.2.errinvFinal with _ | q
    · simp [retainedConv, hinv, fEqv]
    · rw [hinv] at h; simp [fIsNaN] at h
  · intro dom p h
    rcases hinv : p.2.invObsError with _ | q
    · simp [retainedSate, hinv, fIsNaN]
    · rw [hinv] at h; simp [fIsNaN] at h

/-- C5: the outlier classification (`abs(jo) > 25`) and the zero
classification (`jo == 0`) can never both fire on one value — semantically
(a value of absolute value above 25 is not zero) and as implemented (the
`elif` reaches the zero test only when the outlier branch did not fire) —
and at the end of every family loop the outlier count plus the zero count
is at most the number of retained Jo-diff values. -/
theorem C5_classification_exclusive :
    (∀ jo : FQ, (isLargeJo jo && fEqv jo (some 0)) = false) ∧
    (∀ jo : FQ, (isLargeJo jo && isZeroJo jo) = false) ∧
    (∀ (dom : ℚ → ℚ → Bool) (rows : List (ConvRow × ConvRow)),
      (processConv dom rows).countLarge + (processConv dom rows).countZero ≤
        (processConv dom rows).countAssim) ∧
    (∀ (dom : ℚ → ℚ → Bool) (rows : List (UvRow × UvRow)),
      (processUv dom rows).countLarge + (processUv dom rows).countZero ≤
        (processUv dom rows).countAssim) ∧
    (∀ (dom : FQ → FQ → Bool) (rows : List (SateRow × SateRow)),
      (processSate dom rows).countLarge + (processSate dom rows).countZero ≤
        (processSate dom rows).countAssim) := by
  have hsem : ∀ jo : FQ, (isLargeJo jo && fEqv jo (some 0)) = false := by
    intro jo
    rcases jo with _ | x
    · simp [isLargeJo]
    · by_cases hx : x = 0
      · subst hx; simp [isLargeJo]
      · simp [fEqv, hx]
  refine ⟨hsem, ?_, ?_, ?_, ?_⟩
  · intro jo
    by_cases h : isLargeJo jo = true
    · simp [isZeroJo, h]
    · simp [h]
  · intro dom rows
    simp only [processConv]
    rw [processConv_fold]
    simp only [Nat.zero_add]
    calc ((rows.filter (retainedConv dom)).map convJo).countP isLargeJo +
          ((rows.filter (retainedConv dom)).map convJo).countP isZeroJo ≤
        ((rows.filter (retainedConv dom)).map convJo).length :=
          countP_disjoint_le _ _ isLargeJo_not_isZeroJo _
      _ = (rows.filter (retainedConv dom)).length := by simp
  · intro dom rows
    simp only [processUv]
    rw [processUv_fold]
    simp only [Nat.zero_add]
    calc ((rows.filter (retainedUv dom)).flatMap uvJos).countP isLargeJo +
          ((rows.filter (retainedUv dom)).flatMap uvJos).countP isZeroJo ≤
        ((rows.filter (retainedUv dom)).flatMap uvJos).length :=
          countP_disjoint_le _ _ isLargeJo_not_isZeroJo _
      _ = 2 * (rows.filter (retainedUv dom)).length :=
          uvJos_flatMap_length _
  · intro dom rows
    simp only [processSate]
    rw [processSate_fold]
    simp only [Nat.zero_add]
    calc ((rows.filter (retainedSate dom)).map sateJo).countP isLargeJo +
          ((rows.filter (retainedSate dom)).map sateJo).countP isZeroJo ≤
        ((rows.filter (retainedSate dom)).map sateJo).length :=
          countP_disjoint_le _ _ isLargeJo_not_isZeroJo _
      _ = (rows.filter (retainedSate dom)).length := by simp

/-- C8: after the vector-family loop the assimilated count is even (each
retained record contributes its u and its v component), and each of the six
detail arrays — jo_diff, inverse error, latitude, longitude, pressure,
observation type — has length equal to that (even) count. -/
theorem C8_uv_even_counts :
    ∀ (dom : ℚ → ℚ → Bool) (rows : List (UvRow × UvRow)),
      Even ((processUv dom rows).countAssim) ∧
      (processUv dom rows).joDiffs.length = (processUv dom rows).countAssim ∧
      (processUv dom rows).invObsErrors.length =
        (processUv dom rows).countAssim ∧
      (processUv dom rows).lats.length = (processUv dom rows).countAssim ∧
      (processUv dom rows).lons.length = (processUv dom rows).countAssim ∧
      (processUv dom rows).pressures.length =
        (processUv dom rows).countAssim ∧
      (processUv dom rows).obsTypes.length =
        (processUv dom rows).countAssim := by
  intro dom rows
  simp only [processUv]
  rw [processUv_fold]
  simp only [List.nil_append, Nat.zero_add]
  refine ⟨⟨(rows.filter (retainedUv dom)).length, by omega⟩, ?_, ?_, ?_, ?_,
    ?_, ?_⟩
  · exact uvJos_flatMap_length _
  · exact flatMap_pair_length _ _ _
  · exact flatMap_pair_length _ _ _
  · exact flatMap_pair_length _ _ _
  · exact flatMap_pair_length _ _ _
  · exact flatMap_pair_length _ _ _

/-- C3: the claim (and spec section 4.1) promise a non-empty edge sequence
for every non-empty sample, in particular for a constant sample.  The code
violates this: for the non-empty constant sample [5, 5] the standard
deviation is 0, the width falls back to 0.1, and
`np.arange(-4*0, 4*0, 0.1)` is empty — so `compute_bins` returns the empty
list, which then crashes the histogram call downstream. -/
theorem C3_constant_sample_empty_bins :
    ([(5 : ℚ), 5].length = 2) ∧ compute_bins [5, 5] = [] := by
  constructor
  · rfl
  · have hvar : npVarQ [5, 5] = 0 := by norm_num [npVarQ, npMeanQ]
    have hmax : listMaxQ [5, 5] = 5 := by norm_num [listMaxQ]
    have hmin : listMinQ [5, 5] = 5 := by norm_num [listMinQ]
    simp only [compute_bins, hvar, hmax, hmin, List.length_cons,
      List.length_nil]
    rw [if_neg (by norm_num)]
    simp only [Rat.cast_zero, Real.sqrt_zero, mul_zero, neg_zero]
    rw [if_pos (by norm_num)]
    norm_num [arange]

/-- C4: on the empty sample `compute_bins` returns exactly
`np.arange(-1, 1, 0.1)`: 20 edges `-1 + k/10` for `k < 20`, spanning
[-1, 1) at width 0.1. -/
theorem C4_empty_input_default_bins :
    compute_bins [] = arange (-1) 1 (1 / 10) ∧
    (compute_bins []).length = 20 ∧
    compute_bins [] =
      (List.range 20).map (fun k : ℕ => (-1 : ℝ) + (k : ℝ) * (1 / 10)) := by
  have h1 : compute_bins [] = arange (-1) 1 (1 / 10) := by
    simp [compute_bins]
  have hc0 : Int.ceil (((1 : ℝ) - (-1)) / (1 / 10)) = 20 := by norm_num
  have hc : (Int.ceil (((1 : ℝ) - (-1)) / (1 / 10))).toNat = 20 := by
    rw [hc0]; rfl
  refine ⟨h1, ?_, ?_⟩
  · rw [h1]
    simp only [arange, List.length_map, List.length_range]
    exact hc
  · rw [h1]
    simp only [arange]
    rw [hc]

/-- Position `j` of a summary record, read as a numeric array (the empty
list when the position is absent or holds the sensor-name list). -/
def recordArr (r : List PickleElem) (j : ℕ) : List FQ :=
  match r[j]? with
  | some (PickleElem.arr v) => v
  | _ => []

lemma analyze_conv_record (dom : ℚ → ℚ → Bool) (saveDetail : Bool)
    (getFile : String → Option (List (ConvRow × ConvRow))) (cycle : String) :
    (analyze_conv dom saveDetail getFile cycle).record =
      [PickleElem.strs convSensorTypes,
       PickleElem.arr (convSensorTypes.map
         (fun s => (convSensor dom saveDetail cycle s (getFile s)).stats.total)),
       PickleElem.arr (convSensorTypes.map
         (fun s => (convSensor dom saveDetail cycle s (getFile s)).stats.assim)),
       PickleElem.arr (convSensorTypes.map
         (fun s => (convSensor dom saveDetail cycle s (getFile s)).stats.meanJo)),
       PickleElem.arr (convSensorTypes.map
         (fun s => (convSensor dom saveDetail cycle s (getFile s)).stats.sumJo)),
       PickleElem.arr (convSensorTypes.map
         (fun s =>
           (convSensor dom saveDetail cycle s (getFile s)).stats.maxAbsJo))] := by
  simp [analyze_conv, save_legacy_pickle, List.map_map, Function.comp]

lemma convSensor_stats_zero (dom : ℚ → ℚ → Bool) (saveDetail : Bool)
    (cycle sensor : String) (file : Option (List (ConvRow × ConvRow)))
    (h : ∀ rows, file = some rows → (processConv dom rows).countAssim = 0) :
    (convSensor dom saveDetail cycle sensor file).stats = zeroStats := by
  cases file with
  | none => rfl
  | some rows =>
      have hz := h rows rfl
      simp [convSensor, hz]

/-- C6: the persisted conventional summary record is the ordered 6-element
structure `[sensor_types, total_size, assim_size, mean_jo, sum_jo,
max_abs_jo]`; each of its numeric arrays (positions 1 through 5) has length
equal to the sensor-type list, and every sensor slot with no retained
observation — a missing file included — holds the value 0 in each numeric
array. -/
theorem C6_summary_record_invariants :
    ∀ (dom : ℚ → ℚ → Bool) (saveDetail : Bool)
      (getFile : String → Option (List (ConvRow × ConvRow))) (cycle : String),
      ((analyze_conv dom saveDetail getFile cycle).record.length = 6) ∧
      ((analyze_conv dom saveDetail getFile cycle).record[0]? =
        some (PickleElem.strs convSensorTypes)) ∧
      ((analyze_conv dom saveDetail getFile cycle).record =
        save_legacy_pickle convSensorTypes
          (recordArr (analyze_conv dom saveDetail getFile cycle).record 1)
          (recordArr (analyze_conv dom saveDetail getFile cycle).record 2)
          (recordArr (analyze_conv dom saveDetail getFile cycle).record 3)
          (recordArr (analyze_conv dom saveDetail getFile cycle).record 4)
          (recordArr (analyze_conv dom saveDetail getFile cycle).record 5)) ∧
      (∀ j, 1 ≤ j → j ≤ 5 →
        (recordArr (analyze_conv dom saveDetail getFile cycle).record j).length
          = convSensorTypes.length) ∧
      (∀ (ss : ℕ) (sensor : String), convSensorTypes[ss]? = some sensor →
        (∀ rows, getFile sensor = some rows →
          (processConv dom rows).countAssim = 0) →
        ∀ j, 1 ≤ j → j ≤ 5 →
          (recordArr (analyze_conv dom saveDetail getFile cycle).record
            j)[ss]? = some (some (0 : ℚ))) := by
  intro dom saveDetail getFile cycle
  rw [analyze_conv_record]
  refine ⟨rfl, rfl, ?_, ?_, ?_⟩
  · rfl
  · intro j h1 h5
    interval_cases j <;> simp [recordArr]
  · intro ss sensor hss hno j h1 h5
    have hz : (convSensor dom saveDetail cycle sensor (getFile sensor)).stats
        = zeroStats :=
      convSensor_stats_zero dom saveDetail cycle sensor (getFile sensor) hno
    interval_cases j <;> simp [recordArr, hss, hz, zeroStats]

/-- Recognizes the summary-record write: a file write into the "./pickle"
output directory of save_legacy_pickle. -/
def isSummaryWrite (e : Ev) : Bool :=
  match e with
  | Ev.write d _ => decide (d = "./pickle")
  | Ev.mkdir _ => false

lemma filter_flatten_nil {α : Type} (P : α → Bool) :
    ∀ ls : List (List α), (∀ l ∈ ls, l.filter P = []) →
      ls.flatten.filter P = [] := by
  intro ls h
  induction ls with
  | nil => simp
  | cons l ls ih =>
      rw [List.flatten_cons, List.filter_append, h l (by simp),
        ih (fun t ht => h t (by simp [ht]))]
      rfl

lemma convSensor_trace_no_summary (dom : ℚ → ℚ → Bool) (saveDetail : Bool)
    (cycle sensor : String) (file : Option (List (ConvRow × ConvRow))) :
    ((convSensor dom saveDetail cycle sensor file).trace).filter
      isSummaryWrite = [] := by
  cases file with
  | none => rfl
  | some rows =>
      by_cases h : 0 < (processConv dom rows).countAssim
      · cases saveDetail <;>
          simp [convSensor, h, detailTrace, plotHistogramTrace,
            isSummaryWrite]
      · simp [convSensor, h]

/-- C7: in a conventional-scalar run every sensor whose guess file is
absent produces a missing-file warning and an all-zero summary row while
the other sensors are still processed; the run performs exactly one
summary-record write; and every present sensor with at least one retained
observation gets a populated row (its total and assimilated counts). -/
theorem C7_missing_file_handling :
    ∀ (dom : ℚ → ℚ → Bool) (saveDetail : Bool)
      (getFile : String → Option (List (ConvRow × ConvRow))) (cycle : String),
      (∀ sensor ∈ convSensorTypes, getFile sensor = none →
        ("[WARN] Missing file for " ++ sensor) ∈
          (analyze_conv dom saveDetail getFile cycle).warnings) ∧
      (((analyze_conv dom saveDetail getFile cycle).trace.filter
          isSummaryWrite).length = 1) ∧
      (∀ (ss : ℕ) (sensor : String), convSensorTypes[ss]? = some sensor →
        getFile sensor = none →
        ∀ j, 1 ≤ j → j ≤ 5 →
          (recordArr (analyze_conv dom saveDetail getFile cycle).record
            j)[ss]? = some (some (0 : ℚ))) ∧
      (∀ (ss : ℕ) (sensor : String)
        (rows : List (ConvRow × ConvRow)),
        convSensorTypes[ss]? = some sensor → getFile sensor = some rows →
        0 < (processConv dom rows).countAssim →
          (recordArr (analyze_conv dom saveDetail getFile cycle).record
              1)[ss]? = some (some (rows.length : ℚ)) ∧
          (recordArr (analyze_conv dom saveDetail getFile cycle).record
              2)[ss]? =
            some (some ((processConv dom rows).countAssim : ℚ))) := by
  intro dom saveDetail getFile cycle
  refine ⟨?_, ?_, ?_, ?_⟩
  · intro sensor hmem hnone
    simp only [analyze_conv, List.mem_flatten, List.mem_map, List.map_map]
    refine ⟨["[WARN] Missing file for " ++ sensor], ⟨sensor, hmem, ?_⟩,
      by simp⟩
    simp only [Function.comp_apply]
    rw [hnone]
    rfl
  · simp only [analyze_conv, List.filter_append]
    rw [filter_flatten_nil]
    · simp [saveLegacyTrace, isSummaryWrite]
    · intro l hl
      rw [List.map_map] at hl
      obtain ⟨s, _, rfl⟩ := List.mem_map.mp hl
      exact convSensor_trace_no_summary dom saveDetail cycle s (getFile s)
  · intro ss sensor hss hnone j h1 h5
    have hz : (convSensor dom saveDetail cycle sensor (getFile sensor)).stats
        = zeroStats :=
      convSensor_stats_zero dom saveDetail cycle sensor (getFile sensor)
        (fun rows hr => absurd hr (by simp [hnone]))
    rw [analyze_conv_record]
    interval_cases j <;> simp [recordArr, hss, hz, zeroStats]
  · intro ss sensor rows hss hrows hpos
    rw [analyze_conv_record]
    constructor <;> simp [recordArr, hss, convSensor, hrows, hpos]

/-- Scans a trace keeping the set of directories created so far: the scan
yields `true` exactly when every write event whose directory is not the
excused one is preceded (anywhere earlier in the trace) by a creation of
its directory. -/
def guardedExcept (ex : String) : List String → List Ev → Bool
  | _, [] => true
  | seen, Ev.mkdir d :: rest => guardedExcept ex (d :: seen) rest
  | seen, Ev.write d _ :: rest =>
      (decide (d = ex) || seen.contains d) && guardedExcept ex seen rest

/-- The directories created by a trace, accumulated onto `seen`. -/
def seenAfter : List String → List Ev → List String
  | seen, [] => seen
  | seen, Ev.mkdir d :: rest => seenAfter (d :: seen) rest
  | seen, Ev.write _ _ :: rest => seenAfter seen rest

lemma guardedExcept_append (ex : String) :
    ∀ (xs ys : List Ev) (seen : List String),
      guardedExcept ex seen (xs ++ ys) =
        (guardedExcept ex seen xs &&
          guardedExcept ex (seenAfter seen xs) ys) := by
  intro xs
  induction xs with
  | nil => intro ys seen; simp [guardedExcept, seenAfter]
  | cons e xs ih =>
      intro ys seen
      cases e with
      | mkdir d => simp [guardedExcept, seenAfter, ih]
      | write d p => simp [guardedExcept, seenAfter, ih, Bool.and_assoc]

lemma guarded_flatten (ex : String) :
    ∀ ts : List (List Ev),
      (∀ t ∈ ts, ∀ seen, guardedExcept ex seen t = true) →
      ∀ seen, guardedExcept ex seen ts.flatten = true := by
  intro ts h
  induction ts with
  | nil => intro seen; simp [guardedExcept]
  | cons t ts ih =>
      intro seen
      rw [List.flatten_cons, guardedExcept_append]
      rw [h t (by simp) seen, ih (fun u hu => h u (by simp [hu])) _]
      rfl

lemma plotHistogramTrace_guarded (ex outdir sensor cycle : String) :
    ∀ seen, guardedExcept ex seen (plotHistogramTrace outdir sensor cycle)
      = true := by
  intro seen
  simp [plotHistogramTrace, guardedExcept]

lemma saveLegacyTrace_guarded (ex outdir cycle label : String) :
    ∀ seen, guardedExcept ex seen (saveLegacyTrace outdir cycle label)
      = true := by
  intro seen
  simp [saveLegacyTrace, guardedExcept]

lemma detailTrace_guarded (sensor cycle : String) :
    ∀ seen, guardedExcept "pickle_detail" seen (detailTrace sensor cycle)
      = true := by
  intro seen
  simp [detailTrace, guardedExcept]

lemma convSensor_trace_guarded (dom : ℚ → ℚ → Bool) (saveDetail : Bool)
    (cycle sensor : String) (file : Option (List (ConvRow × ConvRow))) :
    ∀ seen, guardedExcept "pickle_detail" seen
      (convSensor dom saveDetail cycle sensor file).trace = true := by
  intro seen
  cases file with
  | none => rfl
  | some rows =>
      by_cases h : 0 < (processConv dom rows).countAssim
      · cases saveDetail with
        | false =>
            simp only [convSensor, h, if_pos, Bool.false_eq_true,
              if_false, List.nil_append]
            exact plotHistogramTrace_guarded _ _ _ _ _
        | true =>
            simp only [convSensor, h, if_pos, if_true]
            rw [guardedExcept_append]
            rw [detailTrace_guarded sensor cycle seen]
            rw [plotHistogramTrace_guarded _ _ _ _ _]
            rfl
      · simp [convSensor, h, guardedExcept]

/-- C9 (amended): in a conventional-scalar run, every histogram-figure
write and every summary-record write is preceded by a creation
(os.makedirs with exist_ok) of its target directory — but the detail-record
write is not: the run never creates the "pickle_detail" directory, so the
detail write is the one persisted write whose directory is not created
before writing (it fails if "pickle_detail" does not already exist). -/
theorem C9_directory_creation_before_write :
    ∀ (dom : ℚ → ℚ → Bool) (saveDetail : Bool)
      (getFile : String → Option (List (ConvRow × ConvRow))) (cycle : String),
      (guardedExcept "pickle_detail" []
        (analyze_conv dom saveDetail getFile cycle).trace = true) ∧
      ((analyze_conv dom saveDetail getFile cycle).trace.all
        (fun e => match e with
          | Ev.mkdir d => !(decide (d = "pickle_detail"))
          | Ev.write _ _ => true) = true) := by
  intro dom saveDetail getFile cycle
  constructor
  · simp only [analyze_conv]
    rw [guardedExcept_append]
    rw [guarded_flatten "pickle_detail" _ ?_ []]
    · rw [saveLegacyTrace_guarded _ _ _ _ _]
      rfl
    · intro t ht seen
      rw [List.map_map] at ht
      obtain ⟨s, _, rfl⟩ := List.mem_map.mp ht
      exact convSensor_trace_guarded dom saveDetail cycle s (getFile s) seen
  · simp only [List.all_eq_true]
    intro e he
    simp only [analyze_conv, List.mem_append, List.mem_flatten,
      List.mem_map, List.map_map] at he
    rcases he with ⟨t, ⟨s, _, rfl⟩, het⟩ | he
    · rcases hf : getFile s with _ | rows
      · simp only [Function.comp_apply, convSensor, hf] at het
        simp at het
      · simp only [Function.comp_apply, convSensor, hf] at het
        by_cases h : 0 < (processConv dom rows).countAssim
        · rw [if_pos h] at het
          simp only [List.mem_append] at het
          rcases het with hd | hp
          · cases saveDetail with
            | false => simp at hd
            | true =>
                simp only [if_true, detailTrace, List.mem_singleton] at hd
                subst hd
                rfl
          · simp only [plotHistogramTrace, List.mem_cons,
              List.mem_singleton] at hp
            rcases hp with rfl | rfl | h0
            · simp
            · rfl
            · cases h0
        · rw [if_neg h] at het
          simp at het
    · simp only [saveLegacyTrace, List.mem_cons, List.mem_singleton] at he
      rcases he with rfl | rfl | h0
      · simp
      · rfl
      · cases h0

/-- C9 counterexample: a concrete run with detail saving enabled and one
retained observation performs a write into the "pickle_detail" directory
while its trace contains no creation of that directory — so not every
persisted write is preceded by creation of its target directory, contrary
to the claim. -/
theorem C9_counterexample :
    ((analyze_conv (fun _ _ => true) true
        (fun s => if s = "conv_t" then
          some [(⟨some 1, none, 1, 0, 0, 0, 0⟩,
                 ⟨some 2, none, 1, 0, 0, 0, 0⟩)] else none)
        "2024092506").trace.any
      (fun e => match e with
        | Ev.write d _ => decide (d = "pickle_detail")
        | Ev.mkdir _ => false) = true) ∧
    ((analyze_conv (fun _ _ => true) true
        (fun s => if s = "conv_t" then
          some [(⟨some 1, none, 1, 0, 0, 0, 0⟩,
                 ⟨some 2, none, 1, 0, 0, 0, 0⟩)] else none)
        "2024092506").trace.any
      (fun e => match e with
        | Ev.mkdir d => decide (d = "pickle_detail")
        | Ev.write _ _ => false) = false) := by
  decide

lemma accumStep_skip (files : String → CycleFiles) (acc : List ℚ × List ℚ)
    (d : String) (h : cyclePresent files d = false) :
    accumStep files acc d = acc := by
  unfold accumStep
  unfold cyclePresent at h
  rcases hs : (files d).sate with _ | s
  · rfl
  · rcases hc : (files d).conv with _ | c
    · rfl
    · rcases hu : (files d).convUv with _ | u
      · rfl
      · rw [hs, hc, hu] at h
        simp at h

lemma foldl_filter_accum (files : String → CycleFiles) :
    ∀ (ds : List String) (acc : List ℚ × List ℚ),
      ds.foldl (accumStep files) acc =
        (ds.filter (cyclePresent files)).foldl (accumStep files) acc := by
  intro ds
  induction ds with
  | nil => intro acc; rfl
  | cons d ds ih =>
      intro acc
      by_cases h : cyclePresent files d = true
      · rw [List.foldl_cons, List.filter_cons_of_pos h, List.foldl_cons, ih]
      · rw [List.foldl_cons, List.filter_cons_of_neg (by simpa using h),
          accumStep_skip files acc d (by simpa using h), ih]

set_option maxRecDepth 4000 in
/-- C10: the post-processing aggregator's hard-coded cycle list runs from
2024-09-25 06 UTC to 2024-09-30 23 UTC and has exactly 138 entries; a
cycle contributes to the accumulated totals only when all three of its
summary files exist (otherwise it contributes nothing); the cycle-averaged
bars divide the accumulated vectors by the fixed list length 138 regardless
of how many cycles were read; hence whenever fewer cycles were present than
the 138 hard-coded ones, every positive accumulated total S is plotted as
S/138, strictly below the true per-read-cycle average S/m. -/
theorem C10_fixed_cycle_divisor :
    ∀ files : String → CycleFiles,
      (datestrList.length = 138 ∧
        datestrList.head? = some "2024092506" ∧
        datestrList.getLast? = some "2024093023") ∧
      (mainAccum files =
        (datestrList.filter (cyclePresent files)).foldl (accumStep files)
          (List.replicate 26 (0 : ℚ), List.replicate 26 (0 : ℚ))) ∧
      (mainTotalBars files =
        ((mainAccum files).1.map (fun x => x / (138 : ℚ)),
         (mainAccum files).2.map (fun x => x / (138 : ℚ)))) ∧
      (∀ (S : ℚ) (m : ℕ), 0 < S → 0 < m → m < datestrList.length →
        S / (datestrList.length : ℚ) < S / (m : ℚ)) := by
  have hlen : datestrList.length = 138 := by decide
  intro files
  refine ⟨⟨hlen, by decide, by decide⟩, ?_, ?_, ?_⟩
  · exact foldl_filter_accum files datestrList _
  · simp [mainTotalBars, plotTotalBars, hlen]
  · intro S m hS hm hlt
    have h1 : (0 : ℚ) < (m : ℚ) := by exact_mod_cast hm
    have h2 : (m : ℚ) < (datestrList.length : ℚ) := by exact_mod_cast hlt
    have h0 : (0 : ℚ) < (datestrList.length : ℚ) := lt_trans h1 h2
    exact div_lt_div_of_pos_left hS h1 h2

/-- Witness for C2: the amended rejection characterization applied at a
concrete NaN-inverse-error conventional pair (retention reduces to the flag
and domain checks) and at a concrete NaN-inverse-error radiance pair
(always rejected). -/
theorem C2_rejection_filter_witness :
    fIsNaN ((⟨some 2, none, 1, 0, 0, 0, 0⟩ : ConvRow)).errinvFinal = true ∧
    retainedConv (fun _ _ => true)
      ((⟨some 1, none, 1, 0, 0, 0, 0⟩ : ConvRow),
       (⟨some 2, none, 1, 0, 0, 0, 0⟩ : ConvRow)) = true ∧
    fIsNaN ((⟨0, some 2, none, none, none, none⟩ : SateRow)).invObsError
      = true ∧
    retainedSate (fun _ _ => true)
      ((⟨0, some 1, none, none, none, none⟩ : SateRow),
       (⟨0, some 2, none, none, none, none⟩ : SateRow)) = false :=
  ⟨rfl,
   C2_rejection_filter.2.2.2.1 (fun _ _ => true)
     ((⟨some 1, none, 1, 0, 0, 0, 0⟩ : ConvRow),
      (⟨some 2, none, 1, 0, 0, 0, 0⟩ : ConvRow)) (by decide),
   rfl,
   C2_rejection_filter.2.2.2.2 (fun _ _ => true)
     ((⟨0, some 1, none, none, none, none⟩ : SateRow),
      (⟨0, some 2, none, none, none, none⟩ : SateRow)) (by decide)⟩

/-- Witness for C6: the record invariants applied to a concrete run in
which every sensor file is missing: the total-size array (position 1) has
the sensor-list length and the first sensor's slot is 0. -/
theorem C6_summary_record_invariants_witness :
    ((recordArr (analyze_conv (fun _ _ => true) false (fun _ => none)
        "c").record 1).length = convSensorTypes.length) ∧
    ((recordArr (analyze_conv (fun _ _ => true) false (fun _ => none)
        "c").record 1)[0]? = some (some (0 : ℚ))) :=
  ⟨(C6_summary_record_invariants (fun _ _ => true) false (fun _ => none)
      "c").2.2.2.1 1 (by decide) (by decide),
   (C6_summary_record_invariants (fun _ _ => true) false (fun _ => none)
      "c").2.2.2.2 0 "conv_fed" (by decide)
      (fun _ h => Option.noConfusion h) 1 (by decide) (by decide)⟩

/-- Witness for C7: a run with conv_t present (one retained observation)
and every other sensor file absent: the absent conv_fed sensor gets its
warning and a zero slot, and the present conv_t sensor (index 6) gets its
populated total and assimilated slots. -/
theorem C7_missing_file_handling_witness :
    (("[WARN] Missing file for conv_fed") ∈
      (analyze_conv (fun _ _ => true) false
        (fun s => if s = "conv_t" then
          some [(⟨some 1, none, 1, 0, 0, 0, 0⟩,
                 ⟨some 2, none, 1, 0, 0, 0, 0⟩)] else none)
        "c").warnings) ∧
    ((recordArr (analyze_conv (fun _ _ => true) false
        (fun s => if s = "conv_t" then
          some [(⟨some 1, none, 1, 0, 0, 0, 0⟩,
                 ⟨some 2, none, 1, 0, 0, 0, 0⟩)] else none)
        "c").record 1)[0]? = some (some (0 : ℚ))) ∧
    ((recordArr (analyze_conv (fun _ _ => true) false
        (fun s => if s = "conv_t" then
          some [(⟨some 1, none, 1, 0, 0, 0, 0⟩,
                 ⟨some 2, none, 1, 0, 0, 0, 0⟩)] else none)
        "c").record 1)[6]? =
      some (some (([((⟨some 1, none, 1, 0, 0, 0, 0⟩ : ConvRow),
        (⟨some 2, none, 1, 0, 0, 0, 0⟩ : ConvRow))].length : ℕ) : ℚ))) ∧
    ((recordArr (analyze_conv (fun _ _ => true) false
        (fun s => if s = "conv_t" then
          some [(⟨some 1, none, 1, 0, 0, 0, 0⟩,
                 ⟨some 2, none, 1, 0, 0, 0, 0⟩)] else none)
        "c").record 2)[6]? =
      some (some ((Nat.cast (processConv (fun _ _ => true)
        [((⟨some 1, none, 1, 0, 0, 0, 0⟩ : ConvRow),
          (⟨some 2, none, 1, 0, 0, 0, 0⟩ : ConvRow))]).countAssim : ℚ)))) :=
  ⟨(C7_missing_file_handling (fun _ _ => true) false
      (fun s => if s = "conv_t" then
        some [(⟨some 1, none, 1, 0, 0, 0, 0⟩,
               ⟨some 2, none, 1, 0, 0, 0, 0⟩)] else none)
      "c").1 "conv_fed" (by decide) (by decide),
   (C7_missing_file_handling (fun _ _ => true) false
      (fun s => if s = "conv_t" then
        some [(⟨some 1, none, 1, 0, 0, 0, 0⟩,
               ⟨some 2, none, 1, 0, 0, 0, 0⟩)] else none)
      "c").2.2.1 0 "conv_fed" (by decide) (by decide) 1 (by decide)
      (by decide),
   ((C7_missing_file_handling (fun _ _ => true) false
      (fun s => if s = "conv_t" then
        some [(⟨some 1, none, 1, 0, 0, 0, 0⟩,
               ⟨some 2, none, 1, 0, 0, 0, 0⟩)] else none)
      "c").2.2.2 6 "conv_t"
      [((⟨some 1, none, 1, 0, 0, 0, 0⟩ : ConvRow),
        (⟨some 2, none, 1, 0, 0, 0, 0⟩ : ConvRow))]
      (by decide) rfl (by decide)).1,
   ((C7_missing_file_handling (fun _ _ => true) false
      (fun s => if s = "conv_t" then
        some [(⟨some 1, none, 1, 0, 0, 0, 0⟩,
               ⟨some 2, none, 1, 0, 0, 0, 0⟩)] else none)
      "c").2.2.2 6 "conv_t"
      [((⟨some 1, none, 1, 0, 0, 0, 0⟩ : ConvRow),
        (⟨some 2, none, 1, 0, 0, 0, 0⟩ : ConvRow))]
      (by decide) rfl (by decide)).2⟩

set_option maxRecDepth 4000 in
/-- Witness for C10: with only the first cycle's files present (one present
cycle out of 138), a positive accumulated total of 1 is plotted as 1/138,
strictly less than the true per-read-cycle average 1/1. -/
theorem C10_fixed_cycle_divisor_witness :
    (0 : ℚ) < 1 ∧ 0 < 1 ∧ 1 < datestrList.length ∧
    (1 : ℚ) / (datestrList.length : ℚ) < (1 : ℚ) / ((1 : ℕ) : ℚ) :=
  ⟨one_pos, Nat.one_pos, by decide,
   (C10_fixed_cycle_divisor (fun _ => ⟨none, none, none⟩)).2.2.2 1 1 one_pos
     Nat.one_pos (by decide)⟩
